import Mathlib

/-!
Verification of the record-manager client (`src/App.tsx` and its variants):
the record data model, the search/status filter, form validation and
submission, snapshot decoding, and detail-panel navigation, modelled as
pure Lean functions mirroring the TypeScript source line by line.
-/

/-- The decoded record held in client state (`interface Record` in the source).
Timestamps are modelled as naturals, `status` as the raw string the decoder
produced (the runtime value is whatever decoding yields, the TypeScript
annotation notwithstanding). -/
structure Record where
  id : String
  name : String
  singular : String
  plural : String
  status : String
  createdAt : Nat
  updatedAt : Nat
deriving DecidableEq

/-- ASCII whitespace test used by the model of JavaScript `String.trim`. -/
def isWS (c : Char) : Bool :=
  c == ' ' || c == '\t' || c == '\n' || c == '\r'

/-- Drop leading whitespace characters. -/
def dropWS : List Char → List Char
  | [] => []
  | c :: cs => if isWS c then dropWS cs else c :: cs

/-- Model of JavaScript `s.trim()`: strip leading and trailing whitespace. -/
def jsTrim (s : String) : String :=
  String.mk (List.reverse (dropWS (List.reverse (dropWS s.toList))))

/-- Model of JavaScript `s.toLowerCase()` (ASCII case folding). -/
def jsToLower (s : String) : String :=
  String.mk (s.toList.map Char.toLower)

/-- Whether the character list `pat` occurs at the head of `l`. -/
def lstarts : List Char → List Char → Bool
  | _, [] => true
  | [], _ :: _ => false
  | c :: cs, p :: ps => c == p && lstarts cs ps

/-- Whether the character list `pat` occurs contiguously anywhere in `l`. -/
def containsList (pat : List Char) : List Char → Bool
  | [] => pat.isEmpty
  | c :: cs => lstarts (c :: cs) pat || containsList pat cs

/-- Model of JavaScript `s.includes(pat)`: contiguous substring test. -/
def jsIncludes (s pat : String) : Bool :=
  containsList pat.toList s.toList

/-- Search predicate of `filteredRecords` (App.tsx lines 57-61): blank query
passes everything, otherwise the lowercased untrimmed query must occur in the
lowercased `name`, `singular` or `plural`. -/
def matchesSearch (q : String) (r : Record) : Bool :=
  (jsTrim q == "") ||
  jsIncludes (jsToLower r.name) (jsToLower q) ||
  jsIncludes (jsToLower r.singular) (jsToLower q) ||
  jsIncludes (jsToLower r.plural) (jsToLower q)

/-- Status predicate of `filteredRecords` (App.tsx lines 62-63). -/
def matchesStatus (sf : String) (r : Record) : Bool :=
  (sf == "All") || (r.status == sf)

/-- The whole per-record filter predicate (App.tsx line 64). -/
def recordPasses (q sf : String) (r : Record) : Bool :=
  matchesSearch q r && matchesStatus sf r

/-- `filteredRecords` (App.tsx lines 56-65): `records.filter(...)`. -/
def filteredRecords (records : List Record) (q sf : String) : List Record :=
  records.filter (recordPasses q sf)

/-- Spec-side reading of "case-insensitive substring match": the lowercased
query occurs contiguously inside the lowercased field. -/
def CISubstr (q t : String) : Prop :=
  ∃ pre post, (jsToLower t).toList = pre ++ ((jsToLower q).toList ++ post)

/-- Spec-side reading of the compound filter predicate of spec section 4.2. -/
def SpecPasses (q sf : String) (r : Record) : Prop :=
  (jsTrim q = "" ∨ CISubstr q r.name ∨ CISubstr q r.singular ∨ CISubstr q r.plural) ∧
  (sf = "All" ∨ r.status = sf)

theorem lstarts_iff (pat : List Char) :
    ∀ l : List Char, lstarts l pat = true ↔ ∃ rest, l = pat ++ rest := by
  induction pat with
  | nil =>
    intro l
    simp [lstarts]
  | cons p ps ih =>
    intro l
    cases l with
    | nil =>
      simp [lstarts]
    | cons c cs =>
      simp only [lstarts, Bool.and_eq_true, beq_iff_eq, ih cs, List.cons_append,
        List.cons.injEq]
      constructor
      · rintro ⟨h1, rest, h2⟩
        exact ⟨rest, h1, h2⟩
      · rintro ⟨rest, h1, h2⟩
        exact ⟨h1, rest, h2⟩

theorem containsList_iff (pat : List Char) :
    ∀ l : List Char, containsList pat l = true ↔ ∃ pre post, l = pre ++ (pat ++ post) := by
  intro l
  induction l with
  | nil =>
    simp only [containsList, List.isEmpty_iff]
    constructor
    · intro h
      exact ⟨[], [], by simp [h]⟩
    · rintro ⟨pre, post, h⟩
      rcases List.append_eq_nil.mp h.symm with ⟨h1, h2⟩
      rcases List.append_eq_nil.mp h2 with ⟨h3, _⟩
      exact h3
  | cons c cs ih =>
    simp only [containsList, Bool.or_eq_true, lstarts_iff, ih]
    constructor
    · rintro (⟨rest, hr⟩ | ⟨pre, post, hp⟩)
      · exact ⟨[], rest, by simp [hr]⟩
      · exact ⟨c :: pre, post, by simp [hp]⟩
    · rintro ⟨pre, post, hp⟩
      cases pre with
      | nil =>
        exact Or.inl ⟨post, by simpa using hp⟩
      | cons x xs =>
        simp only [List.cons_append, List.cons.injEq] at hp
        exact Or.inr ⟨xs, post, hp.2⟩

theorem jsIncludes_iff (s pat : String) :
    jsIncludes s pat = true ↔ ∃ pre post, s.toList = pre ++ (pat.toList ++ post) :=
  containsList_iff pat.toList s.toList

theorem recordPasses_iff (q sf : String) (r : Record) :
    recordPasses q sf r = true ↔ SpecPasses q sf r := by
  simp only [recordPasses, Bool.and_eq_true, matchesSearch, matchesStatus,
    Bool.or_eq_true, beq_iff_eq, jsIncludes_iff, SpecPasses, CISubstr, or_assoc]

/-- Claim C1: a record is in the filtered list iff it is in the input list and
(the query is blank, or matches case-insensitively as a substring of its name,
singular or plural) and (the status filter is All or equals its status). -/
theorem subC1_filter_membership (L : List Record) (q sf : String) (r : Record) :
    r ∈ filteredRecords L q sf ↔ r ∈ L ∧ SpecPasses q sf r := by
  simp [filteredRecords, List.mem_filter, recordPasses_iff]

/-- Claim C8: filtering is idempotent and the filtered list is a sublist of
the input (relative order preserved; a stable filter, never a re-sort). -/
theorem subC8_filter_idempotent_stable (L : List Record) (q sf : String) :
    filteredRecords (filteredRecords L q sf) q sf = filteredRecords L q sf ∧
    (filteredRecords L q sf).Sublist L := by
  constructor
  · unfold filteredRecords
    exact List.filter_eq_self.mpr (fun a ha => List.of_mem_filter ha)
  · exact List.filter_sublist L

/-- A concrete record used to exercise the filter. -/
def appleRec : Record :=
  { id := "r1", name := "Apple", singular := "apple", plural := "apples",
    status := "Active", createdAt := 1, updatedAt := 1 }

/-- Claim C9 counterexample: with the query " app" (leading space), the record
named "Apple" is filtered out, while the trimmed query "app" keeps it — the
code trims the query only to test blankness, and matches with the untrimmed
query, so filtering is not invariant under trimming the query. -/
theorem subC9_counterexample :
    filteredRecords [appleRec] " app" "All" = [] ∧
    filteredRecords [appleRec] (jsTrim " app") "All" = [appleRec] ∧
    filteredRecords [appleRec] " app" "All" ≠
      filteredRecords [appleRec] (jsTrim " app") "All" := by
  decide

/-- Claim C9 amended: the filter result equals the result for the trimmed
query only when the query is whitespace-only or carries no surrounding
whitespace; the substring match itself uses the untrimmed query. -/
theorem subC9_filter_trim_query (L : List Record) (q sf : String)
    (h : jsTrim q = "" ∨ jsTrim q = q) :
    filteredRecords L q sf = filteredRecords L (jsTrim q) sf := by
  rcases h with h | h
  · rw [h]
    unfold filteredRecords
    apply List.filter_congr
    intro r hr
    have hq : (jsTrim q == "") = true := by rw [h]; rfl
    have he : (jsTrim "" == "") = true := rfl
    simp [recordPasses, matchesSearch, hq, he]
  · rw [h]

/-- Claim C9 witness: a whitespace-only query filters the same as its trim. -/
theorem subC9_witness :
    filteredRecords [appleRec] "  " "All" =
      filteredRecords [appleRec] (jsTrim "  ") "All" :=
  subC9_filter_trim_query [appleRec] "  " "All" (Or.inl (by decide))

/-- The form field state (`formData` in the source). -/
structure FormData where
  name : String
  singular : String
  plural : String
  status : String
deriving DecidableEq

/-- The payload of a backend write (`recordData` in `handleSubmit`). -/
structure RecData where
  name : String
  singular : String
  plural : String
  status : String
  createdAt : Nat
  updatedAt : Nat
deriving DecidableEq

/-- Observable side effects of an event handler: toasts, console logging and
the backend calls it issues. -/
inductive Effect where
  | toastError (msg : String)
  | toastSuccess (msg : String)
  | consoleError (msg : String)
  | updateDoc (id : String) (data : RecData)
  | addDoc (data : RecData)
  | deleteDoc (id : String)
deriving DecidableEq

/-- The component's local state (the `useState` cells of `App`). -/
structure AppState where
  records : List Record
  searchQuery : String
  statusFilter : String
  showModal : Bool
  editingRecord : Option Record
  selectedRecord : Option Record
  formData : FormData
deriving DecidableEq

/-- The empty-form defaults that `resetForm` restores. -/
def emptyFormData : FormData :=
  { name := "", singular := "", plural := "", status := "Active" }

/-- `resetForm` (App.tsx lines 75-83): clear the fields and the edit target. -/
def resetForm (s : AppState) : AppState :=
  { s with formData := emptyFormData, editingRecord := none }

/-- `validateForm` (App.tsx lines 85-91): a blank trimmed name fails with an
error toast; anything else passes silently. Returns the verdict and the
effects it raised. -/
def validateForm (fd : FormData) : Bool × List Effect :=
  if jsTrim fd.name == "" then (false, [Effect.toastError "Name is required"])
  else (true, [])

/-- The `recordData` object built in `handleSubmit` (App.tsx lines 100-104):
form fields plus `createdAt` kept from the edit target (or `now` when
creating) and `updatedAt := now`. -/
def recordDataOf (fd : FormData) (editing : Option Record) (now : Nat) : RecData :=
  { name := fd.name, singular := fd.singular, plural := fd.plural,
    status := fd.status,
    createdAt := match editing with
      | some r => r.createdAt
      | none => now,
    updatedAt := now }

/-- `handleSubmit` (App.tsx lines 93-125) as a state transformer. `now` is the
clock value sampled by `new Date()`; `backendOk` is whether the awaited write
resolves or rejects. Returns the next state and the effects in program order:
the validation toast (if any), the attempted write, then the success toast and
close/reset — or, on rejection, the console log and error toast with the state
left untouched. -/
def handleSubmit (s : AppState) (now : Nat) (backendOk : Bool) :
    AppState × List Effect :=
  match validateForm s.formData with
  | (false, effs) => (s, effs)
  | (true, effs) =>
    let rd := recordDataOf s.formData s.editingRecord now
    match s.editingRecord with
    | some r =>
      if backendOk then
        ({ resetForm s with showModal := false },
          effs ++ [Effect.updateDoc r.id rd,
            Effect.toastSuccess "Record updated successfully"])
      else
        (s, effs ++ [Effect.updateDoc r.id rd,
          Effect.consoleError "Error saving record:",
          Effect.toastError "Error saving record. Please try again."])
    | none =>
      let ad := { rd with createdAt := now }
      if backendOk then
        ({ resetForm s with showModal := false },
          effs ++ [Effect.addDoc ad,
            Effect.toastSuccess "Record created successfully"])
      else
        (s, effs ++ [Effect.addDoc ad,
          Effect.consoleError "Error saving record:",
          Effect.toastError "Error saving record. Please try again."])

/-- `handleDelete` (variant source, lines 136-146): after the confirm dialog,
issue the delete; on rejection log and toast, never touching local state. -/
def handleDelete (s : AppState) (id : String) (confirmed backendOk : Bool) :
    AppState × List Effect :=
  if confirmed then
    if backendOk then
      (s, [Effect.deleteDoc id, Effect.toastSuccess "Record deleted successfully"])
    else
      (s, [Effect.deleteDoc id, Effect.consoleError "Error deleting record:",
        Effect.toastError "Error deleting record"])
  else (s, [])

/-- Whether an effect is a backend write (create, update or delete). -/
def isWriteEffect : Effect → Bool
  | Effect.updateDoc _ _ => true
  | Effect.addDoc _ => true
  | Effect.deleteDoc _ => true
  | _ => false

/-- The payload of the first backend write among the effects, if any. -/
def writtenData : List Effect → Option RecData
  | [] => none
  | Effect.updateDoc _ d :: _ => some d
  | Effect.addDoc d :: _ => some d
  | _ :: es => writtenData es

/-- Claim C2: submitting with a blank trimmed name leaves the state exactly as
it was, raises only the "Name is required" error toast, and issues no backend
write, whatever the clock or the backend would have answered. -/
theorem subC2_empty_name_no_write (s : AppState) (now : Nat) (ok : Bool)
    (h : jsTrim s.formData.name = "") :
    handleSubmit s now ok = (s, [Effect.toastError "Name is required"]) ∧
    ∀ e ∈ (handleSubmit s now ok).2, isWriteEffect e = false := by
  have hv : validateForm s.formData = (false, [Effect.toastError "Name is required"]) := by
    simp [validateForm, h]
  refine ⟨?_, ?_⟩ <;> simp [handleSubmit, hv, isWriteEffect]

/-- A form whose name is whitespace-only, for the C2 witness. -/
def blankNameForm : FormData :=
  { name := "  ", singular := "x", plural := "y", status := "Active" }

/-- A concrete state with a whitespace-only name, for the C2 witness. -/
def blankNameState : AppState :=
  { records := [appleRec], searchQuery := "", statusFilter := "All",
    showModal := true, editingRecord := none, selectedRecord := none,
    formData := blankNameForm }

/-- Claim C2 witness: the blank-name submission at a concrete state. -/
theorem subC2_witness :
    handleSubmit blankNameState 7 true =
      (blankNameState, [Effect.toastError "Name is required"]) ∧
    ∀ e ∈ (handleSubmit blankNameState 7 true).2, isWriteEffect e = false :=
  subC2_empty_name_no_write blankNameState 7 true (by decide)

/-- A record being edited, last updated at time 100. -/
def editRec : Record :=
  { id := "e1", name := "Apple", singular := "", plural := "",
    status := "Active", createdAt := 50, updatedAt := 100 }

/-- The form as seeded from `editRec` with the status toggled. -/
def editForm : FormData :=
  { name := "Apple", singular := "", plural := "", status := "Inactive" }

/-- An Edit-mode state targeting `editRec`. -/
def editState : AppState :=
  { records := [editRec], searchQuery := "", statusFilter := "All",
    showModal := true, editingRecord := some editRec, selectedRecord := none,
    formData := editForm }

/-- Claim C3 counterexample: an Edit-mode submission that passes validation
and succeeds, performed when the clock still reads 100 — the pre-edit record's
`updatedAt` — writes `updatedAt = 100` as well: equal to, not strictly greater
than, the pre-edit value. The code sets `updatedAt := now` with no strictness
guard. -/
theorem subC3_counterexample :
    Effect.toastSuccess "Record updated successfully" ∈
      (handleSubmit editState 100 true).2 ∧
    (writtenData (handleSubmit editState 100 true).2).map RecData.updatedAt =
      some editRec.updatedAt ∧
    ¬ editRec.updatedAt < 100 := by
  decide

/-- Claim C3 amended: an Edit-mode submission that passes validation and
succeeds writes a record whose `createdAt` equals the pre-edit `createdAt`
and whose `updatedAt` equals the submission-time clock value `now` — strictly
greater than the pre-edit `updatedAt` only when the clock has advanced past
it, which the code does not itself enforce. -/
theorem subC3_edit_timestamps (s : AppState) (now : Nat) (r0 : Record)
    (hedit : s.editingRecord = some r0) (hname : jsTrim s.formData.name ≠ "") :
    (writtenData (handleSubmit s now true).2).map RecData.createdAt =
      some r0.createdAt ∧
    (writtenData (handleSubmit s now true).2).map RecData.updatedAt =
      some now := by
  have hb : (jsTrim s.formData.name == "") = false :=
    beq_eq_false_iff_ne.mpr hname
  have hv : validateForm s.formData = (true, []) := by
    simp [validateForm, hb]
  constructor <;> simp [handleSubmit, hv, hedit, writtenData, recordDataOf]

/-- Claim C3 witness: the edit submission at clock 200 keeps `createdAt = 50`
and writes `updatedAt = 200`. -/
theorem subC3_witness :
    (writtenData (handleSubmit editState 200 true).2).map RecData.createdAt =
      some editRec.createdAt ∧
    (writtenData (handleSubmit editState 200 true).2).map RecData.updatedAt =
      some 200 :=
  subC3_edit_timestamps editState 200 editRec (by decide) (by decide)

/-- Claim C4: when the backend rejects a write, `handleSubmit` (both Create
and Edit mode) and `handleDelete` leave the whole local state — record list,
open form, field values, edit target, selection, filters — exactly as it was,
and show an error toast; nothing is reset. State preservation holds for every
state, the save-failed toast whenever a write command was actually issued
(the name passed validation), and the delete conjuncts unconditionally —
deletes are issued from table rows with the form closed and blank. -/
theorem subC4_write_failure_preserves_state (s : AppState) (now : Nat)
    (id : String) (c : Bool) :
    (handleSubmit s now false).1 = s ∧
    (jsTrim s.formData.name ≠ "" →
      Effect.toastError "Error saving record. Please try again." ∈
        (handleSubmit s now false).2) ∧
    (handleDelete s id c false).1 = s ∧
    (c = true → Effect.toastError "Error deleting record" ∈
      (handleDelete s id c false).2) := by
  refine ⟨?_, ?_, ?_, ?_⟩
  · rcases hv : validateForm s.formData with ⟨_ | _, effs⟩
    · simp [handleSubmit, hv]
    · cases he : s.editingRecord <;> simp [handleSubmit, hv, he]
  · intro hname
    have hb : (jsTrim s.formData.name == "") = false :=
      beq_eq_false_iff_ne.mpr hname
    have hv : validateForm s.formData = (true, []) := by
      simp [validateForm, hb]
    cases he : s.editingRecord <;> simp [handleSubmit, hv, he]
  · cases c <;> simp [handleDelete]
  · intro hc
    subst hc
    simp [handleDelete]

/-- Claim C4 witness: at a concrete state whose form is blank (the default
closed-form state row deletes are issued from), a rejected submit and a
rejected confirmed delete change nothing and the delete toasts its error. -/
theorem subC4_witness :
    (handleSubmit blankNameState 9 false).1 = blankNameState ∧
    (jsTrim blankNameState.formData.name ≠ "" →
      Effect.toastError "Error saving record. Please try again." ∈
        (handleSubmit blankNameState 9 false).2) ∧
    (handleDelete blankNameState "r1" true false).1 = blankNameState ∧
    (true = true → Effect.toastError "Error deleting record" ∈
      (handleDelete blankNameState "r1" true false).2) :=
  subC4_write_failure_preserves_state blankNameState 9 "r1" true

/-- Claim C5: a Create-mode submission that passes validation and succeeds
writes a record with `createdAt = updatedAt = now`. -/
theorem subC5_create_timestamps (s : AppState) (now : Nat)
    (hcreate : s.editingRecord = none) (hname : jsTrim s.formData.name ≠ "") :
    (writtenData (handleSubmit s now true).2).map RecData.createdAt =
      some now ∧
    (writtenData (handleSubmit s now true).2).map RecData.updatedAt =
      some now := by
  have hb : (jsTrim s.formData.name == "") = false :=
    beq_eq_false_iff_ne.mpr hname
  have hv : validateForm s.formData = (true, []) := by
    simp [validateForm, hb]
  constructor <;> simp [handleSubmit, hv, hcreate, writtenData, recordDataOf]

/-- A valid Create-mode form, for the C5 witness. -/
def createForm : FormData :=
  { name := "Pear", singular := "pear", plural := "pears", status := "Active" }

/-- A Create-mode state carrying `createForm`. -/
def createState : AppState :=
  { records := [], searchQuery := "", statusFilter := "All",
    showModal := true, editingRecord := none, selectedRecord := none,
    formData := createForm }

/-- The details-modal position lookup (App.tsx line 296):
`filteredRecords.findIndex((r) => r.id === selectedRecord.id)`, -1 when the
selected id is absent from the filtered list. -/
def currentIndex (filtered : List Record) (sel : Record) : Int :=
  match filtered.findIdx? (fun r => r.id == sel.id) with
  | some i => (i : Int)
  | none => -1

/-- `hasPrev` (App.tsx line 297): `currentIndex > 0`. -/
def hasPrev (filtered : List Record) (sel : Record) : Bool :=
  decide (0 < currentIndex filtered sel)

/-- `hasNext` (App.tsx line 298):
`currentIndex < filteredRecords.length - 1 && currentIndex >= 0`. -/
def hasNext (filtered : List Record) (sel : Record) : Bool :=
  decide (currentIndex filtered sel < (filtered.length : Int) - 1) &&
  decide (0 ≤ currentIndex filtered sel)

/-- `recordNum` (App.tsx line 299): the displayed 1-based position, falling
back to 0 when the lookup found nothing. -/
def recordNum (filtered : List Record) (sel : Record) : Nat :=
  if 0 ≤ currentIndex filtered sel then (currentIndex filtered sel + 1).toNat
  else 0

/-- The Previous button's click handler (App.tsx line 322): guarded by
`hasPrev`, it selects `filteredRecords[currentIndex - 1]`; otherwise the
selection stays. -/
def prevClick (filtered : List Record) (sel : Record) : Option Record :=
  if hasPrev filtered sel then
    filtered.get? (currentIndex filtered sel - 1).toNat
  else some sel

/-- The Next button's click handler (App.tsx line 330): guarded by `hasNext`,
it selects `filteredRecords[currentIndex + 1]`; otherwise the selection
stays. -/
def nextClick (filtered : List Record) (sel : Record) : Option Record :=
  if hasNext filtered sel then
    filtered.get? (currentIndex filtered sel + 1).toNat
  else some sel

/-- Claim C6: navigation never leaves the filtered list's bounds — Previous
is disabled and a no-op at index 0, Next is disabled and a no-op at the last
index, a selection absent from the filtered list (index -1) disables both and
displays position 0 of N, and any navigation that does move lands on a member
of the filtered list. -/
theorem subC6_navigation_bounds (f : List Record) (sel : Record) :
    (currentIndex f sel = 0 →
      hasPrev f sel = false ∧ prevClick f sel = some sel) ∧
    (currentIndex f sel = (f.length : Int) - 1 →
      hasNext f sel = false ∧ nextClick f sel = some sel) ∧
    (currentIndex f sel = -1 →
      hasPrev f sel = false ∧ hasNext f sel = false ∧ recordNum f sel = 0) ∧
    (∀ r : Record, prevClick f sel = some r → r = sel ∨ r ∈ f) ∧
    (∀ r : Record, nextClick f sel = some r → r = sel ∨ r ∈ f) := by
  refine ⟨?_, ?_, ?_, ?_, ?_⟩
  · intro h
    exact ⟨by simp [hasPrev, h], by simp [prevClick, hasPrev, h]⟩
  · intro h
    exact ⟨by simp [hasNext, h], by simp [nextClick, hasNext, h]⟩
  · intro h
    refine ⟨?_, ?_, ?_⟩ <;> simp [hasPrev, hasNext, recordNum, h]
  · intro r hr
    cases hp : hasPrev f sel with
    | false =>
      rw [prevClick] at hr
      simp [hp] at hr
      exact Or.inl hr.symm
    | true =>
      rw [prevClick, if_pos hp] at hr
      exact Or.inr (List.get?_mem hr)
  · intro r hr
    cases hn : hasNext f sel with
    | false =>
      rw [nextClick] at hr
      simp [hn] at hr
      exact Or.inl hr.symm
    | true =>
      rw [nextClick, if_pos hn] at hr
      exact Or.inr (List.get?_mem hr)

/-- Claim C5 witness: a concrete create at clock 42 writes both timestamps
as 42. -/
theorem subC5_witness :
    (writtenData (handleSubmit createState 42 true).2).map RecData.createdAt =
      some 42 ∧
    (writtenData (handleSubmit createState 42 true).2).map RecData.updatedAt =
      some 42 :=
  subC5_create_timestamps createState 42 (by decide) (by decide)

/-- A raw backend document as delivered by a subscription push: every field
other than the id may be absent. Timestamps are naturals (a present
`Timestamp` is always converted by `.toDate()`, which never yields a falsy
value). -/
structure Doc where
  id : String
  name : Option String
  singular : Option String
  plural : Option String
  status : Option String
  createdAt : Option Nat
  updatedAt : Option Nat
deriving DecidableEq

/-- JavaScript `v || dflt` on an optional string field: the default is taken
when the field is absent or the empty string (the only falsy string). -/
def jsOrStr (v : Option String) (dflt : String) : String :=
  match v with
  | none => dflt
  | some s => if s = "" then dflt else s

/-- The `onSnapshot` per-document decoder (App.tsx lines 38-48): each field is
`data.f || default`, and timestamps fall back to `new Date()` — the read-time
clock `now`. -/
def decodeDoc (now : Nat) (d : Doc) : Record :=
  { id := d.id,
    name := jsOrStr d.name "",
    singular := jsOrStr d.singular "",
    plural := jsOrStr d.plural "",
    status := jsOrStr d.status "Active",
    createdAt := d.createdAt.getD now,
    updatedAt := d.updatedAt.getD now }

/-- The whole snapshot callback (App.tsx lines 36-50): decode every document
in delivery order into the new local list. -/
def decodeSnapshot (now : Nat) (docs : List Doc) : List Record :=
  docs.map (decodeDoc now)

/-- A document carrying an unrecognized status string. -/
def oddStatusDoc : Doc :=
  { id := "d7", name := some "x", singular := none, plural := none,
    status := some "Archived", createdAt := some 1, updatedAt := some 2 }

/-- Claim C7 counterexample: a document whose status field holds the
unrecognized non-empty string "Archived" decodes to status "Archived", not
"Active" — `data.status || 'Active'` only substitutes for a missing or empty
value, it does not normalize unrecognized ones. -/
theorem subC7_counterexample :
    decodeDoc 0 oddStatusDoc ∈ decodeSnapshot 0 [oddStatusDoc] ∧
    (decodeDoc 0 oddStatusDoc).status = "Archived" ∧
    (decodeDoc 0 oddStatusDoc).status ≠ "Active" := by
  decide

/-- Claim C7 amended: decoding yields the empty string for a missing singular
or plural, status Active for a missing or empty status, and the read-time
clock for a missing timestamp — but a present non-empty status string is kept
verbatim even when it is neither Active nor Inactive. No field is left
undefined. -/
theorem subC7_decode_defaults (now : Nat) (d : Doc) :
    (d.singular = none → (decodeDoc now d).singular = "") ∧
    (d.plural = none → (decodeDoc now d).plural = "") ∧
    (d.status = none → (decodeDoc now d).status = "Active") ∧
    (d.status = some "" → (decodeDoc now d).status = "Active") ∧
    (d.createdAt = none → (decodeDoc now d).createdAt = now) ∧
    (d.updatedAt = none → (decodeDoc now d).updatedAt = now) ∧
    (∀ v : String, d.status = some v → v ≠ "" → (decodeDoc now d).status = v) := by
  refine ⟨?_, ?_, ?_, ?_, ?_, ?_, ?_⟩
  · intro h
    simp [decodeDoc, jsOrStr, h]
  · intro h
    simp [decodeDoc, jsOrStr, h]
  · intro h
    simp [decodeDoc, jsOrStr, h]
  · intro h
    simp [decodeDoc, jsOrStr, h]
  · intro h
    simp [decodeDoc, h]
  · intro h
    simp [decodeDoc, h]
  · intro v h hv
    simp [decodeDoc, jsOrStr, h, hv]

/-- A document with no name field at all. -/
def namelessDoc : Doc :=
  { id := "d10", name := none, singular := some "s", plural := some "p",
    status := some "Active", createdAt := some 1, updatedAt := some 1 }

/-- Claim C10 counterexample: a snapshot containing a document without a name
decodes to a local list whose record has the empty name — the client can
present a record violating the non-empty-name invariant. -/
theorem subC10_counterexample :
    decodeDoc 0 namelessDoc ∈ decodeSnapshot 0 [namelessDoc] ∧
    (decodeDoc 0 namelessDoc).name = "" := by
  decide

/-- Claim C10 amended: decoding never leaves the name undefined — a missing
or empty name field decodes to the empty string — and the decoded name is
non-empty exactly when the backend document carries a present, non-empty
name; the non-empty-name invariant therefore holds only for snapshots whose
documents all do. -/
theorem subC10_decoded_name_nonempty_iff (now : Nat) (d : Doc) :
    (decodeDoc now d).name ≠ "" ↔ ∃ s : String, d.name = some s ∧ s ≠ "" := by
  cases h : d.name with
  | none => simp [decodeDoc, jsOrStr, h]
  | some s =>
    by_cases hs : s = ""
    · subst hs
      simp [decodeDoc, jsOrStr, h]
    · simp [decodeDoc, jsOrStr, h, hs]
